import Mathlib

/-! Verification of the billfrog scheduler, storage and pricing core.

The definitions below are a shallow embedding of the repository code:
the cadence skip logic and dispatch commit of
billfrog/scheduler/task_scheduler.py, the usage recording, daily
aggregates, aggregated queries and retention cleanup of
billfrog/storage/database.py, the pricing table and simulated usage data
of billfrog/ai_providers/openai_provider.py, and the send result handling
of billfrog/email/sender.py.

Timestamps are modelled as integer seconds; the calendar date of a
timestamp is its floor division by 86400, matching the whole-day
arithmetic of datetime and timedelta. Monetary amounts are modelled as
exact rationals, and the Python round function on rationals rounds to the
nearest multiple of one ten-thousandth. Fallible storage operations take
explicit success flags for the underlying I/O transactions and return the
outcome the code would return. The Python random module is modelled as a
hidden stream of naturals together with a read position that every draw
advances. -/

namespace Billfrog

/-- The three cadences accepted by AgentConfig.schedule in config.py. -/
inductive Schedule where
  | daily
  | weekly
  | monthly
deriving DecidableEq, Repr

/-- Mirror of AgentConfig in billfrog/config.py. The timestamps
created_at and last_receipt_sent are integer seconds. -/
structure AgentConfig where
  name : String
  provider : String
  api_key_encrypted : String
  email : String
  schedule : Schedule
  created_at : Int
  last_receipt_sent : Option Int
deriving DecidableEq, Repr

/-- The days attribute of a Python timedelta: floor division of the
difference in seconds by 86400. -/
def timedeltaDays (delta : Int) : Int := Int.fdiv delta 86400

/-- The whole-day threshold used for each cadence by
TaskScheduler.shouldSkipReceipt: 1, 7 and 30 days. -/
def cadenceDays : Schedule → Int
  | Schedule.daily => 1
  | Schedule.weekly => 7
  | Schedule.monthly => 30

/-- Embedding of TaskScheduler.shouldSkipReceipt in task_scheduler.py:
returns false when last_receipt_sent is unset, otherwise compares the
whole days elapsed against the cadence threshold. -/
def shouldSkipReceipt (cfg : AgentConfig) (now : Int) : Bool :=
  match cfg.last_receipt_sent with
  | none => false
  | some lastSent =>
    match cfg.schedule with
    | Schedule.daily => decide (timedeltaDays (now - lastSent) < 1)
    | Schedule.weekly => decide (timedeltaDays (now - lastSent) < 7)
    | Schedule.monthly => decide (timedeltaDays (now - lastSent) < 30)

/-- Result of invoking the external email delivery service in
EmailSender.send_receipt: either an HTTP status response or a raised
exception. -/
inductive InvokeResult where
  | status (code : Nat) (text : String)
  | raised (msg : String)
deriving DecidableEq, Repr

/-- Embedding of EmailSender.send_receipt in billfrog/email/sender.py:
a 200 response returns true, any other status returns false, and the
exception handler logs and returns true. -/
def sendReceipt : InvokeResult → Bool
  | InvokeResult.status 200 _ => true
  | InvokeResult.status _ _ => false
  | InvokeResult.raised _ => true

/-- The persisted agent map of BillfrogConfig.agents, as an association
list keyed by agent name. -/
def AgentMap : Type := List (String × AgentConfig)

/-- Embedding of TaskScheduler.updateLastReceiptSent: when the agent is
present, set its last_receipt_sent to now and save; every other entry is
written back unchanged. -/
def updateLastReceiptSent (agents : AgentMap) (agentName : String)
    (now : Int) : AgentMap :=
  agents.map (fun p =>
    if p.1 = agentName then (p.1, { p.2 with last_receipt_sent := some now })
    else p)

/-- The effect of TaskScheduler.generateReceiptForAgent on the persisted
configuration after the send step: on send success the last receipt
timestamp is committed, on failure the configuration is left untouched. -/
def generateReceiptCommit (agents : AgentMap) (agentName : String)
    (now : Int) (sendSuccess : Bool) : AgentMap :=
  if sendSuccess then updateLastReceiptSent agents agentName now else agents

/-- Outcome of one guarded per-agent dispatch: the broad try block of
TaskScheduler.generateReceiptForAgent either completes or logs the
exception, in both cases returning normally. -/
inductive TickResult where
  | ok
  | errorLogged (msg : String)
deriving DecidableEq, Repr

/-- The exception guard wrapped around the whole body of
TaskScheduler.generateReceiptForAgent: a raised error is caught and
logged, and the call returns normally either way. -/
def guardAgent : Except String Unit → TickResult
  | Except.ok _ => TickResult.ok
  | Except.error e => TickResult.errorLogged e

/-- One scheduler tick over the configured agents: each agent runs its
guarded dispatch body. The behavior argument gives, per agent, whether
the unguarded body would complete or raise. -/
def runPending (agents : List String)
    (behavior : String → Except String Unit) : List (String × TickResult) :=
  agents.map (fun a => (a, guardAgent (behavior a)))

/-- The tick loop of TaskScheduler.runScheduler: one guarded tick per
loop iteration; the loop itself never stops because of an agent error. -/
def runSchedulerLoop (ticks : List (String → Except String Unit))
    (agents : List String) : List (List (String × TickResult)) :=
  ticks.map (fun behavior => runPending agents behavior)

/-- A row of the usage_records table in billfrog/storage/database.py. -/
structure UsageRecordRow where
  agent_name : String
  timestamp : Int
  model : String
  prompt_tokens : Nat
  completion_tokens : Nat
  total_tokens : Nat
  cost_usd : ℚ
deriving DecidableEq, Repr

/-- A row of the agent_stats table: the per-agent per-day aggregate. -/
structure AgentStatsRow where
  agent_name : String
  date : Int
  total_requests : Nat
  total_tokens : Nat
  total_cost_usd : ℚ
  models_used : List (String × Nat)
deriving DecidableEq, Repr

/-- A row of the email_logs table. -/
structure EmailLogRow where
  agent_name : Option String
  to_email : String
  subject : String
  success : Bool
  timestamp : Int
deriving DecidableEq, Repr

/-- The three tables of the local database that the verified operations
touch. -/
structure DB where
  usage_records : List UsageRecordRow
  email_logs : List EmailLogRow
  agent_stats : List AgentStatsRow
deriving DecidableEq, Repr

/-- The calendar date of a timestamp, as used by the SQL date function
and by strftime on a datetime. -/
def dateOf (t : Int) : Int := Int.fdiv t 86400

/-- The WHERE clause used by updateDailyStats to select the aggregate
row of one agent and one date. -/
def statsKeyMatches (agentName : String) (day : Int)
    (r : AgentStatsRow) : Bool :=
  r.agent_name == agentName && r.date == day

/-- The models_used dictionary update in updateDailyStats: add the
request count to the existing entry for the model, or insert it. -/
def bumpModelCount (mu : List (String × Nat)) (model : String)
    (requests : Nat) : List (String × Nat) :=
  if mu.any (fun p => p.1 == model) then
    mu.map (fun p => if p.1 == model then (p.1, p.2 + requests) else p)
  else mu ++ [(model, requests)]

/-- The fresh aggregate row inserted by updateDailyStats when no row of
the agent and day exists yet. -/
def mkStatsRow (agentName model : String) (requests tokens : Nat)
    (cost : ℚ) (day : Int) : AgentStatsRow :=
  { agent_name := agentName, date := day, total_requests := requests,
    total_tokens := tokens, total_cost_usd := cost,
    models_used := [(model, requests)] }

/-- The UPDATE of updateDailyStats: the columns of the selected row are
set to the totals of the fetched row plus the increments. -/
def bumpStatsRow (existing : AgentStatsRow) (model : String)
    (requests tokens : Nat) (cost : ℚ) (r : AgentStatsRow) :
    AgentStatsRow :=
  { r with
    total_requests := existing.total_requests + requests,
    total_tokens := existing.total_tokens + tokens,
    total_cost_usd := existing.total_cost_usd + cost,
    models_used := bumpModelCount existing.models_used model requests }

/-- Embedding of LocalDatabase.updateDailyStats: fetch the aggregate row
for the agent and today, then either update it with the incremented
totals or insert a fresh row. -/
def updateDailyStats (stats : List AgentStatsRow) (agentName model : String)
    (requests tokens : Nat) (cost : ℚ) (today : Int) : List AgentStatsRow :=
  match stats.find? (statsKeyMatches agentName today) with
  | some existing =>
      stats.map (fun r =>
        if statsKeyMatches agentName today r then
          bumpStatsRow existing model requests tokens cost r
        else r)
  | none => stats ++ [mkStatsRow agentName model requests tokens cost today]

/-- The usage_records row inserted by record_usage. -/
def mkUsageRow (agentName model : String) (pt ct : Nat) (cost : ℚ)
    (now : Int) : UsageRecordRow :=
  { agent_name := agentName, timestamp := now, model := model,
    prompt_tokens := pt, completion_tokens := ct, total_tokens := pt + ct,
    cost_usd := cost }

/-- Embedding of LocalDatabase.record_usage: the event insert runs and
commits in one transaction (insertOk), and only afterwards the daily
aggregate is updated in a second, separate transaction (statsOk) whose
failure is caught and logged inside updateDailyStats; the call still
returns true in that case. A failed insert returns false and leaves the
database unchanged. -/
def record_usage (db : DB) (agentName model : String)
    (promptTokens completionTokens : Nat) (costUsd : ℚ) (now : Int)
    (insertOk statsOk : Bool) : DB × Bool :=
  if insertOk then
    let db1 : DB :=
      { db with usage_records := db.usage_records ++
          [mkUsageRow agentName model promptTokens completionTokens
            costUsd now] }
    let db2 : DB :=
      if statsOk then
        { db1 with agent_stats := (updateDailyStats db1.agent_stats
            agentName model 1 (promptTokens + completionTokens) costUsd
            (dateOf now)) }
      else db1
    (db2, true)
  else (db, false)

/-- The usage events of one agent on one calendar day, selected from a
list of usage records. -/
def eventsIn (records : List UsageRecordRow) (agentName : String)
    (day : Int) : List UsageRecordRow :=
  records.filter
    (fun r => r.agent_name == agentName && dateOf r.timestamp == day)

/-- The usage events of one agent on one calendar day. -/
def eventsOf (db : DB) (agentName : String) (day : Int) :
    List UsageRecordRow :=
  eventsIn db.usage_records agentName day

/-- Sum of the cost column over a list of events. -/
def costSum (events : List UsageRecordRow) : ℚ :=
  (events.map (fun r => r.cost_usd)).sum

/-- Sum of the total_tokens column over a list of events. -/
def tokenSum (events : List UsageRecordRow) : Nat :=
  (events.map (fun r => r.total_tokens)).sum

/-- The aggregate invariant for one agent and one day over explicit
record and aggregate lists: the stored aggregate row carries exactly the
sums over that day and agent, and when no row is stored there are no
events either. -/
def aggConsistent (records : List UsageRecordRow)
    (stats : List AgentStatsRow) (agentName : String) (day : Int) : Prop :=
  match stats.find? (statsKeyMatches agentName day) with
  | some row =>
      row.total_cost_usd = costSum (eventsIn records agentName day) ∧
      row.total_requests = (eventsIn records agentName day).length ∧
      row.total_tokens = tokenSum (eventsIn records agentName day)
  | none => eventsIn records agentName day = []

/-- The aggregate invariant of a database for one agent and one day. -/
def statsConsistent (db : DB) (agentName : String) (day : Int) : Prop :=
  aggConsistent db.usage_records db.agent_stats agentName day

/-- The arguments of one record_usage call varying between calls of a
same-agent same-day sequence. -/
structure UsageCall where
  model : String
  prompt_tokens : Nat
  completion_tokens : Nat
  cost_usd : ℚ
deriving DecidableEq, Repr

/-- A sequence of record_usage calls for one agent at one time, each
with both transactions succeeding; returns the final database and the
list of returned flags. -/
def runUsageCalls (db : DB) (agentName : String) (now : Int) :
    List UsageCall → DB × List Bool
  | [] => (db, [])
  | c :: rest =>
    let r := record_usage db agentName c.model c.prompt_tokens
      c.completion_tokens c.cost_usd now true true
    let rest2 := runUsageCalls r.1 agentName now rest
    (rest2.1, r.2 :: rest2.2)

/-- One row of the daily breakdown returned by
LocalDatabase.get_usage_data. -/
structure DailyRow where
  date : Int
  requests : Nat
  prompt_tokens : Nat
  completion_tokens : Nat
  cost_usd : ℚ
deriving DecidableEq, Repr

/-- The aggregated usage result of LocalDatabase.get_usage_data. -/
structure UsageSummary where
  period_start : Int
  period_end : Int
  total_requests : Nat
  total_prompt_tokens : Nat
  total_completion_tokens : Nat
  total_tokens : Nat
  total_cost_usd : ℚ
  models_used : List (String × Nat)
  daily_breakdown : List DailyRow
deriving DecidableEq, Repr

/-- Insert a date into an ascending list, keeping it ascending. -/
def insertSorted (d : Int) : List Int → List Int
  | [] => [d]
  | x :: xs => if d ≤ x then d :: x :: xs else x :: insertSorted d xs

/-- Ascending insertion sort on dates, the ORDER BY date of the daily
breakdown query. -/
def sortDates : List Int → List Int
  | [] => []
  | x :: xs => insertSorted x (sortDates xs)

/-- The GROUP BY model query of get_usage_data: one pair per distinct
model among the selected events, with its request count. -/
def modelCounts (events : List UsageRecordRow) : List (String × Nat) :=
  ((events.map (fun r => r.model)).dedup).map
    (fun m => (m, (events.filter (fun r => r.model == m)).length))

/-- The GROUP BY date ... ORDER BY date query of get_usage_data: one row
per distinct event date, ascending, with the per-day sums. Days with no
events produce no row. -/
def usage_daily_breakdown (events : List UsageRecordRow) : List DailyRow :=
  (sortDates ((events.map (fun r => dateOf r.timestamp)).dedup)).map
    (fun d =>
      let dayEvents := events.filter (fun r => dateOf r.timestamp == d)
      { date := d, requests := dayEvents.length,
        prompt_tokens := (dayEvents.map (fun r => r.prompt_tokens)).sum,
        completion_tokens :=
          (dayEvents.map (fun r => r.completion_tokens)).sum,
        cost_usd := (dayEvents.map (fun r => r.cost_usd)).sum })

/-- Embedding of LocalDatabase.get_usage_data: select the events of the
agent whose date is on or after today minus daysBack, and aggregate them
into totals, a model breakdown and a daily breakdown. -/
def get_usage_data (db : DB) (agentName : String) (daysBack : Nat)
    (today : Int) : UsageSummary :=
  let startDate := today - (daysBack : Int)
  let events := db.usage_records.filter
    (fun r => r.agent_name == agentName &&
      decide (startDate ≤ dateOf r.timestamp))
  { period_start := startDate, period_end := today,
    total_requests := events.length,
    total_prompt_tokens := (events.map (fun r => r.prompt_tokens)).sum,
    total_completion_tokens :=
      (events.map (fun r => r.completion_tokens)).sum,
    total_tokens := (events.map (fun r => r.total_tokens)).sum,
    total_cost_usd := (events.map (fun r => r.cost_usd)).sum,
    models_used := modelCounts events,
    daily_breakdown := usage_daily_breakdown events }

/-- get_usage_data as a state transformer over the database, making the
absence of writes explicit: the function only issues SELECT statements
and returns the database as it found it. -/
def get_usage_data_st (db : DB) (agentName : String) (daysBack : Nat)
    (today : Int) : UsageSummary × DB :=
  (get_usage_data db agentName daysBack today, db)

/-- A database holding a single event of agent a on day 8 (timestamp in
seconds), used to exhibit the gap in the daily series. -/
def dbWithGap : DB :=
  { usage_records :=
      [{ agent_name := "a", timestamp := 8 * 86400, model := "gpt-4",
         prompt_tokens := 1, completion_tokens := 1, total_tokens := 2,
         cost_usd := 1 }],
    email_logs := [], agent_stats := [] }

/-- Embedding of LocalDatabase.cleanup_old_data: inside one transaction,
delete the usage records, email logs and aggregate rows whose date is
strictly before today minus daysToKeep, then commit; on I/O failure the
transaction rolls back, nothing changes, and false is returned. -/
def cleanup_old_data (db : DB) (daysToKeep : Nat) (today : Int)
    (ioOk : Bool) : DB × Bool :=
  if ioOk then
    let cutoff := today - (daysToKeep : Int)
    ({ usage_records := db.usage_records.filter
         (fun r => !decide (dateOf r.timestamp < cutoff)),
       email_logs := db.email_logs.filter
         (fun r => !decide (dateOf r.timestamp < cutoff)),
       agent_stats := db.agent_stats.filter
         (fun r => !decide (r.date < cutoff)) }, true)
  else (db, false)

/-- The MODEL_PRICING table of OpenAIProvider, with the per-token prompt
and completion rates as exact rationals (rate per 1000 tokens divided by
1000). -/
def MODEL_PRICING : List (String × ℚ × ℚ) :=
  [("gpt-4", 3 / 100000, 6 / 100000),
   ("gpt-4-0613", 3 / 100000, 6 / 100000),
   ("gpt-4-32k", 6 / 100000, 12 / 100000),
   ("gpt-4-turbo", 1 / 100000, 3 / 100000),
   ("gpt-4-turbo-preview", 1 / 100000, 3 / 100000),
   ("gpt-3.5-turbo", 3 / 2000000, 1 / 500000),
   ("gpt-3.5-turbo-0125", 1 / 2000000, 3 / 2000000),
   ("gpt-3.5-turbo-instruct", 3 / 2000000, 1 / 500000),
   ("text-davinci-003", 1 / 50000, 1 / 50000),
   ("text-davinci-002", 1 / 50000, 1 / 50000),
   ("davinci", 1 / 50000, 1 / 50000),
   ("curie", 1 / 500000, 1 / 500000),
   ("babbage", 1 / 2000000, 1 / 2000000),
   ("ada", 1 / 2500000, 1 / 2500000),
   ("text-embedding-ada-002", 1 / 10000000, 0),
   ("text-embedding-3-small", 1 / 50000000, 0),
   ("text-embedding-3-large", 13 / 100000000, 0)]

/-- Whether the second character list starts the first one. -/
def startsWithChars : List Char → List Char → Bool
  | _, [] => true
  | [], _ :: _ => false
  | a :: as, b :: bs => a == b && startsWithChars as bs

/-- Whether the second character list occurs inside the first one. -/
def containsChars : List Char → List Char → Bool
  | [], needle => needle.isEmpty
  | a :: as, needle =>
    startsWithChars (a :: as) needle || containsChars as needle

/-- The Python substring test needle in hay. -/
def strContains (hay needle : String) : Bool :=
  containsChars hay.toList needle.toList

/-- Embedding of OpenAIProvider.normalizeModelName: lowercase the name,
prefer a direct pricing-table key, then the substring patterns in source
order, and otherwise return the lowercased name itself. -/
def normalizeModelName (model : String) : String :=
  let ml := model.toLower
  if (MODEL_PRICING.lookup ml).isSome then ml
  else if strContains ml ("gpt-4-turbo") then "gpt-4-turbo"
  else if strContains ml ("gpt-4-32k") then "gpt-4-32k"
  else if strContains ml ("gpt-4") then "gpt-4"
  else if strContains ml ("gpt-3.5-turbo-0125") then "gpt-3.5-turbo-0125"
  else if strContains ml ("gpt-3.5-turbo-instruct") then
    "gpt-3.5-turbo-instruct"
  else if strContains ml ("gpt-3.5-turbo") then "gpt-3.5-turbo"
  else if strContains ml ("text-davinci") then "text-davinci-003"
  else if strContains ml ("text-embedding-3-large") then
    "text-embedding-3-large"
  else if strContains ml ("text-embedding-3-small") then
    "text-embedding-3-small"
  else if strContains ml ("text-embedding") then "text-embedding-ada-002"
  else ml

/-- Embedding of OpenAIProvider.calculate_cost: normalize the model
name, fall back to the gpt-3.5-turbo key when the normalized name is not
priced, and charge each token kind at its per-token rate. -/
def calculate_cost (model : String) (promptTokens completionTokens : Nat) :
    ℚ :=
  let key0 := normalizeModelName model
  let key := if (MODEL_PRICING.lookup key0).isSome then key0
             else "gpt-3.5-turbo"
  let pricing := (MODEL_PRICING.lookup key).getD (0, 0)
  promptTokens * pricing.1 + completionTokens * pricing.2

/-- The effective per-token rates of a model: the table entry of its
normalized name, or the gpt-3.5-turbo rates when absent. This follows
the wording of the claim and is compared against calculate_cost. -/
def effectivePricing (model : String) : ℚ × ℚ :=
  (MODEL_PRICING.lookup (normalizeModelName model)).getD
    (3 / 2000000, 1 / 500000)

/-- The hidden state of the Python random module: a stream of naturals
and the position of the next draw. -/
structure Rng where
  supply : Nat → Nat
  pos : Nat

/-- random.randint a b: one value in the closed interval, consuming one
draw from the stream. -/
def randint (a b : Nat) (r : Rng) : Nat × Rng :=
  (a + r.supply r.pos % (b - a + 1), { supply := r.supply, pos := r.pos + 1 })

/-- Python round(x, 4) modelled on exact rationals: round to the nearest
multiple of one ten-thousandth. -/
def round4 (q : ℚ) : ℚ := (round (q * 10000) : ℚ) / 10000

/-- One row of the simulated daily breakdown, including the copied
models dictionary. -/
structure SimDailyRow where
  date : Int
  requests : Nat
  prompt_tokens : Nat
  completion_tokens : Nat
  cost_usd : ℚ
  models : List (String × Nat)
deriving DecidableEq, Repr

/-- The UsageData record returned by OpenAIProvider.simulateUsageData. -/
structure SimUsageData where
  period_start : Int
  period_end : Int
  total_requests : Nat
  total_prompt_tokens : Nat
  total_completion_tokens : Nat
  total_tokens : Nat
  total_cost_usd : ℚ
  models_used : List (String × Nat)
  daily_breakdown : List SimDailyRow
deriving DecidableEq, Repr

/-- The inner cost loop of simulateUsageData: distribute the daily
requests over the models proportionally, with integer division and a
floor of one request, and price each share with calculate_cost. -/
def dailyModelCost (modelsUsed : List (String × Nat))
    (totalRequests dailyRequests dailyPt dailyCt : Nat) : ℚ :=
  modelsUsed.foldl
    (fun acc mc =>
      if dailyRequests > 0 then
        let modelRequests := max 1 (mc.2 * dailyRequests / totalRequests)
        let modelPt := dailyPt * modelRequests / dailyRequests
        let modelCt := dailyCt * modelRequests / dailyRequests
        acc + calculate_cost mc.1 modelPt modelCt
      else acc) 0

/-- The state threaded through the day loop of simulateUsageData. -/
structure SimLoopState where
  rng : Rng
  total_prompt_tokens : Nat
  total_completion_tokens : Nat
  total_cost : ℚ
  daily_breakdown : List SimDailyRow

/-- One iteration of the day loop of simulateUsageData: three fresh
draws for the daily requests and token counts, the proportional daily
cost, and one appended breakdown row. -/
def simulateDay (modelsUsed : List (String × Nat)) (totalRequests : Nat)
    (day : Int) (st : SimLoopState) : SimLoopState :=
  let d1 := randint 5 20 st.rng
  let d2 := randint 1000 5000 d1.2
  let d3 := randint 500 2500 d2.2
  let dailyCost := dailyModelCost modelsUsed totalRequests d1.1 d2.1 d3.1
  { rng := d3.2,
    total_prompt_tokens := st.total_prompt_tokens + d2.1,
    total_completion_tokens := st.total_completion_tokens + d3.1,
    total_cost := st.total_cost + dailyCost,
    daily_breakdown := st.daily_breakdown ++
      [{ date := day, requests := d1.1, prompt_tokens := d2.1,
         completion_tokens := d3.1, cost_usd := round4 dailyCost,
         models := modelsUsed }] }

/-- Embedding of OpenAIProvider.simulateUsageData: draw the period
totals and the model mix, then loop over every day from the start date
to the end date inclusive, threading the random stream; returns the
usage data together with the advanced random state. -/
def simulateUsageData (startDay endDay : Int) (r : Rng) :
    SimUsageData × Rng :=
  let t1 := randint 50 300 r
  let m1 := randint 20 150 t1.2
  let m2 := randint 10 50 m1.2
  let m3 := randint 5 30 m2.2
  let modelsUsed := [("gpt-3.5-turbo", m1.1), ("gpt-4", m2.1),
    ("text-embedding-ada-002", m3.1)]
  let numDays := (endDay + 1 - startDay).toNat
  let final := (List.range numDays).foldl
    (fun st (i : Nat) => simulateDay modelsUsed t1.1 (startDay + (i : Int)) st)
    { rng := m3.2, total_prompt_tokens := 0, total_completion_tokens := 0,
      total_cost := 0, daily_breakdown := [] }
  ({ period_start := startDay, period_end := endDay,
     total_requests := t1.1,
     total_prompt_tokens := final.total_prompt_tokens,
     total_completion_tokens := final.total_completion_tokens,
     total_tokens := final.total_prompt_tokens +
       final.total_completion_tokens,
     total_cost_usd := round4 final.total_cost,
     models_used := modelsUsed,
     daily_breakdown := final.daily_breakdown }, final.rng)

/-- Claim C1: shouldSkipReceipt returns false whenever last_receipt_sent
is unset, and for a set last_receipt_sent it returns true if and only if
the number of whole days elapsed since it is below the cadence threshold:
1 for daily, 7 for weekly, 30 for monthly. -/
theorem shouldSkipReceipt_spec (cfg : AgentConfig) (now : Int) :
    (cfg.last_receipt_sent = none → shouldSkipReceipt cfg now = false) ∧
    (∀ t : Int, cfg.last_receipt_sent = some t →
      (shouldSkipReceipt cfg now = true ↔
        timedeltaDays (now - t) < cadenceDays cfg.schedule)) := by
  constructor
  · intro h
    simp [shouldSkipReceipt, h]
  · intro t h
    cases hs : cfg.schedule <;>
      simp [shouldSkipReceipt, h, hs, cadenceDays]

/-- Witness for C1: a daily agent last served at time 0, asked again
exactly one day later, is not skipped. -/
theorem shouldSkipReceipt_spec_witness :
    shouldSkipReceipt
      { name := "a", provider := "openai", api_key_encrypted := "k",
        email := "a@example.com", schedule := Schedule.daily,
        created_at := 0, last_receipt_sent := some 0 } 86400 = false := by
  have h := (shouldSkipReceipt_spec
    { name := "a", provider := "openai", api_key_encrypted := "k",
      email := "a@example.com", schedule := Schedule.daily,
      created_at := 0, last_receipt_sent := some 0 } 86400).2 0 rfl
  revert h
  decide

/-- Looking up an agent after updateLastReceiptSent yields its old entry
with last_receipt_sent replaced by now. -/
theorem lookup_updateLastReceiptSent (agents : AgentMap) (agentName : String)
    (now : Int) :
    (updateLastReceiptSent agents agentName now).lookup agentName =
      (agents.lookup agentName).map
        (fun c => { c with last_receipt_sent := some now }) := by
  induction agents with
  | nil => rfl
  | cons p rest ih =>
    obtain ⟨k, c⟩ := p
    simp only [updateLastReceiptSent, List.map] at ih ⊢
    by_cases hk : k = agentName
    · subst hk
      rw [if_pos rfl]
      simp [List.lookup]
    · rw [if_neg hk]
      have hk2 : (agentName == k) = false :=
        beq_eq_false_iff_ne.mpr (Ne.symm hk)
      simp only [List.lookup, hk2]
      exact ih

/-- Claim C5: a delivery response with any status other than 200 makes
send_receipt return false, and then the persisted configuration, in
particular every last_receipt_sent timestamp, is left unchanged, so the
skip decision of any later tick is the same as it would have been before
the attempt and the agent is retried rather than retired. -/
theorem send_failure_leaves_last_receipt (agents : AgentMap)
    (agentName : String) (now tick : Int) (code : Nat) (text : String)
    (hcode : code ≠ 200) :
    sendReceipt (InvokeResult.status code text) = false ∧
    generateReceiptCommit agents agentName now
      (sendReceipt (InvokeResult.status code text)) = agents ∧
    ((generateReceiptCommit agents agentName now
        (sendReceipt (InvokeResult.status code text))).lookup
        agentName).map (fun c => shouldSkipReceipt c tick) =
      (agents.lookup agentName).map (fun c => shouldSkipReceipt c tick) := by
  have hs : sendReceipt (InvokeResult.status code text) = false := by
    unfold sendReceipt
    split
    · rename_i heq
      injection heq with h1
      exact absurd h1 hcode
    · rfl
    · rename_i heq
      cases heq
  refine ⟨hs, ?_, ?_⟩ <;> rw [hs] <;> rfl

/-- Witness for C5: a 500 response leaves the configuration unchanged. -/
theorem send_failure_leaves_last_receipt_witness :
    generateReceiptCommit ([] : AgentMap) "a" 0
      (sendReceipt (InvokeResult.status 500 "err")) = ([] : AgentMap) := by
  exact (send_failure_leaves_last_receipt ([] : AgentMap) "a" 0 0 500
    "err" (by decide)).2.1

/-- Claim C6: on send success the commit maps the configuration entrywise:
the named agent gets last_receipt_sent = now with every other field
preserved, and every other agent entry is exactly unchanged. -/
theorem send_success_commit_frame (agents : AgentMap) (agentName : String)
    (now : Int) :
    List.Forall₂ (fun p q : String × AgentConfig =>
      q.1 = p.1 ∧
      (if p.1 = agentName then
        q.2.last_receipt_sent = some now ∧
        q.2.name = p.2.name ∧
        q.2.provider = p.2.provider ∧
        q.2.api_key_encrypted = p.2.api_key_encrypted ∧
        q.2.email = p.2.email ∧
        q.2.schedule = p.2.schedule ∧
        q.2.created_at = p.2.created_at
      else q.2 = p.2))
      agents (generateReceiptCommit agents agentName now true) := by
  induction agents with
  | nil => exact List.Forall₂.nil
  | cons p rest ih =>
    refine List.Forall₂.cons ?_ ih
    by_cases hk : p.1 = agentName
    · simp [generateReceiptCommit, updateLastReceiptSent, hk]
    · simp [generateReceiptCommit, updateLastReceiptSent, hk]

/-- Claim C9: when the delivery service raises an exception,
send_receipt reports success, and the success path of the dispatch then
advances the last_receipt_sent of the agent exactly as after a real
delivery. -/
theorem send_exception_reported_success (msg : String) (agents : AgentMap)
    (agentName : String) (now : Int) :
    sendReceipt (InvokeResult.raised msg) = true ∧
    (generateReceiptCommit agents agentName now
        (sendReceipt (InvokeResult.raised msg))).lookup agentName =
      (agents.lookup agentName).map
        (fun c => { c with last_receipt_sent := some now }) := by
  refine ⟨rfl, ?_⟩
  exact lookup_updateLastReceiptSent agents agentName now

/-- Looking up an agent among the tick results of a tagged map yields
the image of that agent, for any agent present in the list. -/
theorem lookup_map_self (agents : List String) (f : String → TickResult)
    (a : String) (ha : a ∈ agents) :
    (agents.map (fun x => (x, f x))).lookup a = some (f a) := by
  induction agents with
  | nil => cases ha
  | cons b rest ih =>
    by_cases hb : a = b
    · subst hb
      simp [List.lookup]
    · have hb2 : (a == b) = false := beq_eq_false_iff_ne.mpr hb
      simp only [List.map, List.lookup, hb2]
      exact ih (List.mem_of_ne_of_mem hb ha)

/-- Claim C8: per-agent errors are isolated. Every tick produces one
guarded result per configured agent, so the tick never terminates early;
the result of an agent is a function of its own behavior only, so
changing whether other agents raise cannot change it; and the scheduler
loop performs every tick regardless of errors. -/
theorem per_agent_error_isolation (agents : List String)
    (behavior behavior2 : String → Except String Unit) (a : String)
    (ticks : List (String → Except String Unit))
    (ha : a ∈ agents) (hb : behavior a = behavior2 a) :
    (runPending agents behavior).length = agents.length ∧
    (runPending agents behavior).lookup a = some (guardAgent (behavior a)) ∧
    (runPending agents behavior).lookup a =
      (runPending agents behavior2).lookup a ∧
    (runSchedulerLoop ticks agents).length = ticks.length := by
  refine ⟨by simp [runPending], ?_, ?_, by simp [runSchedulerLoop]⟩
  · exact lookup_map_self agents (fun x => guardAgent (behavior x)) a ha
  · rw [show runPending agents behavior =
        agents.map (fun x => (x, guardAgent (behavior x))) from rfl,
      show runPending agents behavior2 =
        agents.map (fun x => (x, guardAgent (behavior2 x))) from rfl,
      lookup_map_self agents (fun x => guardAgent (behavior x)) a ha,
      lookup_map_self agents (fun x => guardAgent (behavior2 x)) a ha, hb]

/-- Witness for C8: with agent a raising and agent b completing, the
tick still yields a normal result for agent b. -/
theorem per_agent_error_isolation_witness :
    (runPending ["a", "b"]
        (fun x => if x = "a" then Except.error "boom"
                  else Except.ok ())).lookup "b" = some TickResult.ok := by
  have h := (per_agent_error_isolation ["a", "b"]
    (fun x => if x = "a" then Except.error "boom" else Except.ok ())
    (fun x => if x = "a" then Except.error "boom" else Except.ok ())
    "b" [] (by simp) rfl).2.1
  rw [h]
  rfl

/-- Every value stored in an association list satisfies a property that
all its entries satisfy. -/
theorem lookup_forall {α β : Type _} [BEq α] (P : β → Prop)
    (l : List (α × β)) (hl : ∀ p ∈ l, P p.2) (a : α) (b : β)
    (h : l.lookup a = some b) : P b := by
  induction l with
  | nil => cases h
  | cons q rest ih =>
    obtain ⟨k, c⟩ := q
    simp only [List.lookup] at h
    cases hab : (a == k) with
    | true =>
      rw [hab] at h
      simp only at h
      injection h with h2
      rw [← h2]
      exact hl (k, c) (List.mem_cons_self _ _)
    | false =>
      rw [hab] at h
      simp only at h
      exact ih (fun p hp => hl p (List.mem_cons_of_mem _ hp)) h

/-- Every rate in the pricing table is non-negative. -/
theorem model_pricing_nonneg :
    ∀ p ∈ MODEL_PRICING, 0 ≤ p.2.1 ∧ 0 ≤ p.2.2 := by
  intro p hp
  fin_cases hp <;> exact ⟨by norm_num, by norm_num⟩

/-- Claim C10: calculate_cost charges the prompt tokens at the per-token
prompt rate and the completion tokens at the per-token completion rate
of the effective pricing of the model, where a model whose normalized
name is not in the table gets the gpt-3.5-turbo rates; the result is
non-negative for all inputs. -/
theorem calculate_cost_spec (model : String) (pt ct : Nat) :
    calculate_cost model pt ct =
      pt * (effectivePricing model).1 + ct * (effectivePricing model).2 ∧
    0 ≤ calculate_cost model pt ct := by
  have hfb : MODEL_PRICING.lookup "gpt-3.5-turbo" =
      some (3 / 2000000, 1 / 500000) := by rfl
  have heq : calculate_cost model pt ct =
      pt * (effectivePricing model).1 + ct * (effectivePricing model).2 := by
    cases hl : MODEL_PRICING.lookup (normalizeModelName model) with
    | some p => simp [calculate_cost, effectivePricing, hl]
    | none => simp [calculate_cost, effectivePricing, hl, hfb]
  refine ⟨heq, ?_⟩
  rw [heq]
  have hnn : 0 ≤ (effectivePricing model).1 ∧
      0 ≤ (effectivePricing model).2 := by
    cases hl : MODEL_PRICING.lookup (normalizeModelName model) with
    | some p =>
      have hp := lookup_forall (fun v : ℚ × ℚ => 0 ≤ v.1 ∧ 0 ≤ v.2)
        MODEL_PRICING model_pricing_nonneg _ p hl
      simpa [effectivePricing, hl] using hp
    | none =>
      exact ⟨by simp [effectivePricing, hl]; try norm_num,
        by simp [effectivePricing, hl]; try norm_num⟩
  have h1 : (0 : ℚ) ≤ (pt : ℚ) * (effectivePricing model).1 :=
    mul_nonneg (by positivity) hnn.1
  have h2 : (0 : ℚ) ≤ (ct : ℚ) * (effectivePricing model).2 :=
    mul_nonneg (by positivity) hnn.2
  exact add_nonneg h1 h2

/-- Claim C7: cleanup_old_data returns the flag of its single
transaction; on failure nothing changes; on success it keeps exactly the
usage events and aggregate rows whose date is on or after the cutoff,
and for any given day either both the events and the aggregate of that
day are removed or both are kept. -/
theorem cleanup_old_data_exact (db : DB) (daysToKeep : Nat) (today : Int)
    (ioOk : Bool) :
    (cleanup_old_data db daysToKeep today ioOk).2 = ioOk ∧
    (ioOk = false → (cleanup_old_data db daysToKeep today ioOk).1 = db) ∧
    (ioOk = true →
      (∀ r : UsageRecordRow,
        r ∈ (cleanup_old_data db daysToKeep today ioOk).1.usage_records ↔
          r ∈ db.usage_records ∧
            ¬ dateOf r.timestamp < today - (daysToKeep : Int)) ∧
      (∀ s : AgentStatsRow,
        s ∈ (cleanup_old_data db daysToKeep today ioOk).1.agent_stats ↔
          s ∈ db.agent_stats ∧ ¬ s.date < today - (daysToKeep : Int)) ∧
      (∀ day : Int, day < today - (daysToKeep : Int) →
        (∀ r ∈ db.usage_records, dateOf r.timestamp = day →
          r ∉ (cleanup_old_data db daysToKeep today ioOk).1.usage_records) ∧
        (∀ s ∈ db.agent_stats, s.date = day →
          s ∉ (cleanup_old_data db daysToKeep today ioOk).1.agent_stats)) ∧
      (∀ day : Int, ¬ day < today - (daysToKeep : Int) →
        (∀ r ∈ db.usage_records, dateOf r.timestamp = day →
          r ∈ (cleanup_old_data db daysToKeep today ioOk).1.usage_records) ∧
        (∀ s ∈ db.agent_stats, s.date = day →
          s ∈ (cleanup_old_data db daysToKeep today ioOk).1.agent_stats))) := by
  cases ioOk with
  | false =>
    refine ⟨rfl, fun _ => rfl, fun h => by cases h⟩
  | true =>
    have hu : ∀ r : UsageRecordRow,
        r ∈ (cleanup_old_data db daysToKeep today true).1.usage_records ↔
          r ∈ db.usage_records ∧
            ¬ dateOf r.timestamp < today - (daysToKeep : Int) := by
      intro r
      simp [cleanup_old_data, List.mem_filter]
    have hs : ∀ s : AgentStatsRow,
        s ∈ (cleanup_old_data db daysToKeep today true).1.agent_stats ↔
          s ∈ db.agent_stats ∧ ¬ s.date < today - (daysToKeep : Int) := by
      intro s
      simp [cleanup_old_data, List.mem_filter]
    refine ⟨rfl, ?_, ?_⟩
    · intro h
      cases h
    refine fun _ => ⟨hu, hs, ?_, ?_⟩
    · intro day hday
      constructor
      · intro r _ hd hmem
        have h2 := ((hu r).mp hmem).2
        rw [hd] at h2
        exact h2 hday
      · intro s _ hd hmem
        have h2 := ((hs s).mp hmem).2
        rw [hd] at h2
        exact h2 hday
    · intro day hday
      constructor
      · intro r hr hd
        exact (hu r).mpr ⟨hr, by rw [hd]; exact hday⟩
      · intro s hsm hd
        exact (hs s).mpr ⟨hsm, by rw [hd]; exact hday⟩

/-- Witness for C7: purging the single-event database with a cutoff of
day 18 succeeds and removes the day 8 event. -/
theorem cleanup_old_data_exact_witness :
    (cleanup_old_data dbWithGap 2 20 true).2 = true ∧
    ({ agent_name := "a", timestamp := 8 * 86400, model := "gpt-4",
       prompt_tokens := 1, completion_tokens := 1, total_tokens := 2,
       cost_usd := 1 } : UsageRecordRow) ∉
      (cleanup_old_data dbWithGap 2 20 true).1.usage_records := by
  have h := cleanup_old_data_exact dbWithGap 2 20 true
  refine ⟨h.1, ?_⟩
  intro hmem
  have h2 := ((h.2.2 rfl).1 _).mp hmem
  have h3 := h2.2
  revert h3
  simp [dateOf]

/-- Insertion keeps exactly the old elements plus the inserted one. -/
theorem mem_insertSorted (d a : Int) (l : List Int) :
    a ∈ insertSorted d l ↔ a = d ∨ a ∈ l := by
  induction l with
  | nil => simp [insertSorted]
  | cons x xs ih =>
    by_cases hx : d ≤ x
    · simp [insertSorted, hx]
    · simp [insertSorted, hx, ih]
      tauto

/-- Sorting keeps exactly the elements. -/
theorem mem_sortDates (a : Int) (l : List Int) :
    a ∈ sortDates l ↔ a ∈ l := by
  induction l with
  | nil => simp [sortDates]
  | cons x xs ih =>
    simp [sortDates, mem_insertSorted, ih]

/-- Insertion into an ascending list keeps it ascending. -/
theorem sorted_insertSorted (d : Int) (l : List Int)
    (h : List.Pairwise (· ≤ ·) l) :
    List.Pairwise (· ≤ ·) (insertSorted d l) := by
  induction l with
  | nil => simp [insertSorted]
  | cons x xs ih =>
    rw [List.pairwise_cons] at h
    obtain ⟨hx, hxs⟩ := h
    by_cases hd : d ≤ x
    · rw [insertSorted, if_pos hd, List.pairwise_cons]
      refine ⟨?_, ?_⟩
      · intro y hy
        rcases List.mem_cons.mp hy with rfl | hy2
        · exact hd
        · exact le_trans hd (hx y hy2)
      · rw [List.pairwise_cons]
        exact ⟨hx, hxs⟩
    · rw [insertSorted, if_neg hd, List.pairwise_cons]
      refine ⟨?_, ih hxs⟩
      intro y hy
      rcases (mem_insertSorted d y xs).mp hy with rfl | hy2
      · exact le_of_lt (lt_of_not_le hd)
      · exact hx y hy2

/-- The date sort produces an ascending list. -/
theorem sorted_sortDates (l : List Int) :
    List.Pairwise (· ≤ ·) (sortDates l) := by
  induction l with
  | nil => exact List.Pairwise.nil
  | cons x xs ih => exact sorted_insertSorted x (sortDates xs) ih

/-- Insertion permutes consing the element in front. -/
theorem perm_insertSorted (d : Int) (l : List Int) :
    List.Perm (insertSorted d l) (d :: l) := by
  induction l with
  | nil => exact List.Perm.refl _
  | cons x xs ih =>
    by_cases hd : d ≤ x
    · rw [insertSorted, if_pos hd]
    · rw [insertSorted, if_neg hd]
      exact (List.Perm.cons x ih).trans (List.Perm.swap d x xs)

/-- The date sort is a permutation of its input. -/
theorem perm_sortDates (l : List Int) : List.Perm (sortDates l) l := by
  induction l with
  | nil => exact List.Perm.refl _
  | cons x xs ih =>
    exact (perm_insertSorted x (sortDates xs)).trans (List.Perm.cons x ih)

/-- Sorting the deduplicated dates yields a strictly ascending list:
every day appears at most once, in increasing order. -/
theorem strict_sorted_sortDates_dedup (l : List Int) :
    List.Pairwise (· < ·) (sortDates l.dedup) := by
  have h1 := sorted_sortDates l.dedup
  have h2 : List.Pairwise (fun a b : Int => a ≠ b) (sortDates l.dedup) :=
    ((perm_sortDates l.dedup).nodup_iff).mpr (List.nodup_dedup l)
  exact (h1.and h2).imp (fun h => lt_of_le_of_ne h.1 h.2)

/-- The dates of the daily breakdown are exactly the sorted distinct
event dates. -/
theorem daily_breakdown_dates (events : List UsageRecordRow) :
    (usage_daily_breakdown events).map (fun row => row.date) =
      sortDates ((events.map (fun r => dateOf r.timestamp)).dedup) := by
  rw [usage_daily_breakdown, List.map_map]
  exact List.map_id' _

/-- A day has a row in the daily breakdown exactly when some event falls
on it. -/
theorem daily_breakdown_mem_iff (events : List UsageRecordRow) (day : Int) :
    (∃ row ∈ usage_daily_breakdown events, row.date = day) ↔
      ∃ r ∈ events, dateOf r.timestamp = day := by
  constructor
  · rintro ⟨row, hrow, hdate⟩
    rw [usage_daily_breakdown, List.mem_map] at hrow
    obtain ⟨d, hd, hmk⟩ := hrow
    have hrd : row.date = d := by
      rw [← hmk]
    rw [hrd] at hdate
    rw [mem_sortDates, List.mem_dedup, List.mem_map] at hd
    obtain ⟨r, hr, hrdate⟩ := hd
    exact ⟨r, hr, by rw [hrdate, hdate]⟩
  · rintro ⟨r, hr, hrdate⟩
    rw [usage_daily_breakdown]
    have hd : dateOf r.timestamp ∈
        sortDates ((events.map (fun e => dateOf e.timestamp)).dedup) := by
      rw [mem_sortDates, List.mem_dedup, List.mem_map]
      exact ⟨r, hr, rfl⟩
    refine ⟨_, List.mem_map_of_mem _ hd, ?_⟩
    exact hrdate

/-- Claim C3 (amended): the dates of the daily series of get_usage_data
are strictly increasing, so the series holds at most one entry per day
and is in ascending date order; a day has a row exactly when the agent
has an event on that day within the window, so days with no events are
absent rather than zero-filled; and an agent with no events in the
window still yields a summary with total cost 0. -/
theorem get_usage_data_daily_series (db : DB) (agentName : String)
    (daysBack : Nat) (today : Int) :
    List.Pairwise (· < ·)
      ((get_usage_data db agentName daysBack today).daily_breakdown.map
        (fun row => row.date)) ∧
    (∀ day : Int,
      (∃ row ∈ (get_usage_data db agentName daysBack today).daily_breakdown,
        row.date = day) ↔
      (∃ r ∈ db.usage_records, r.agent_name = agentName ∧
        today - (daysBack : Int) ≤ dateOf r.timestamp ∧
        dateOf r.timestamp = day)) ∧
    ((∀ r ∈ db.usage_records, r.agent_name = agentName →
        ¬ today - (daysBack : Int) ≤ dateOf r.timestamp) →
      (get_usage_data db agentName daysBack today).total_cost_usd = 0) := by
  refine ⟨?_, ?_, ?_⟩
  · rw [show (get_usage_data db agentName daysBack today).daily_breakdown =
      usage_daily_breakdown (db.usage_records.filter
        (fun r => r.agent_name == agentName &&
          decide (today - (daysBack : Int) ≤ dateOf r.timestamp))) from rfl]
    rw [daily_breakdown_dates]
    exact strict_sorted_sortDates_dedup _
  · intro day
    rw [show (get_usage_data db agentName daysBack today).daily_breakdown =
      usage_daily_breakdown (db.usage_records.filter
        (fun r => r.agent_name == agentName &&
          decide (today - (daysBack : Int) ≤ dateOf r.timestamp))) from rfl]
    rw [daily_breakdown_mem_iff]
    constructor
    · rintro ⟨r, hr, hrdate⟩
      rw [List.mem_filter] at hr
      obtain ⟨hmem, hcond⟩ := hr
      rw [Bool.and_eq_true, beq_iff_eq, decide_eq_true_eq] at hcond
      exact ⟨r, hmem, hcond.1, hcond.2, hrdate⟩
    · rintro ⟨r, hmem, hname, hwin, hrdate⟩
      refine ⟨r, ?_, hrdate⟩
      rw [List.mem_filter]
      refine ⟨hmem, ?_⟩
      rw [Bool.and_eq_true, beq_iff_eq, decide_eq_true_eq]
      exact ⟨hname, hwin⟩
  · intro hempty
    have hnil : db.usage_records.filter
        (fun r => r.agent_name == agentName &&
          decide (today - (daysBack : Int) ≤ dateOf r.timestamp)) = [] := by
      rw [List.filter_eq_nil_iff]
      intro r hr
      rw [Bool.and_eq_true, beq_iff_eq, decide_eq_true_eq]
      rintro ⟨hname, hwin⟩
      exact hempty r hr hname hwin
    rw [show (get_usage_data db agentName daysBack today).total_cost_usd =
      ((db.usage_records.filter
        (fun r => r.agent_name == agentName &&
          decide (today - (daysBack : Int) ≤ dateOf r.timestamp))).map
            (fun r => r.cost_usd)).sum from rfl]
    rw [hnil]
    rfl

/-- Witness for C3 (amended): on the empty database the summary of any
agent has total cost 0. -/
theorem get_usage_data_daily_series_witness :
    (get_usage_data
      { usage_records := [], email_logs := [], agent_stats := [] }
      "a" 7 10).total_cost_usd = 0 := by
  exact (get_usage_data_daily_series
    { usage_records := [], email_logs := [], agent_stats := [] }
    "a" 7 10).2.2 (by simp)

/-- Counterexample to C3 as stated: the database holding one event of
agent a on day 8, queried for the 7 days before day 10, yields a daily
breakdown with a single row for day 8 — day 10 lies inside the range but
has no row, so the series is not contiguous. -/
theorem get_usage_data_gap_counterexample :
    ((get_usage_data dbWithGap "a" 7 10).daily_breakdown.map
        (fun row => row.date)) = [8] ∧
    ¬ (∀ day : Int, 3 ≤ day → day ≤ 10 →
        ∃ row ∈ (get_usage_data dbWithGap "a" 7 10).daily_breakdown,
          row.date = day) := by
  have h1 : ((get_usage_data dbWithGap "a" 7 10).daily_breakdown.map
      (fun row => row.date)) = [8] := by rfl
  refine ⟨h1, ?_⟩
  intro hall
  obtain ⟨row, hrow, hd⟩ := hall 10 (by norm_num) (by norm_num)
  have hmem : row.date ∈ ((get_usage_data dbWithGap "a" 7 10).daily_breakdown.map
      (fun row => row.date)) := List.mem_map_of_mem _ hrow
  rw [h1, hd] at hmem
  simp at hmem

/-- find? skips a prefix containing no match. -/
theorem find?_append_of_none {α : Type _} (p : α → Bool) (l l2 : List α)
    (h : l.find? p = none) : (l ++ l2).find? p = l2.find? p := by
  induction l with
  | nil => rfl
  | cons a rest ih =>
    cases ha : p a with
    | true =>
      simp only [List.find?, ha] at h
      cases h
    | false =>
      simp only [List.find?, ha] at h
      simp only [List.cons_append, List.find?, ha]
      exact ih h

/-- find? over a map that rewrites exactly the matching elements without
changing whether they match returns the rewritten first match. -/
theorem find?_map_guard {α : Type _} (p : α → Bool) (g : α → α)
    (hg : ∀ r, p (g r) = p r) (l : List α) :
    (l.map (fun r => if p r then g r else r)).find? p =
      (l.find? p).map g := by
  induction l with
  | nil => rfl
  | cons a rest ih =>
    cases ha : p a with
    | true => simp [List.find?, ha, hg]
    | false => simp [List.find?, ha, ih]

/-- The cost sum distributes over list append. -/
theorem costSum_append (l1 l2 : List UsageRecordRow) :
    costSum (l1 ++ l2) = costSum l1 + costSum l2 := by
  simp [costSum]

/-- The token sum distributes over list append. -/
theorem tokenSum_append (l1 l2 : List UsageRecordRow) :
    tokenSum (l1 ++ l2) = tokenSum l1 + tokenSum l2 := by
  simp [tokenSum]

/-- Introduction rule for the aggregate invariant in the present case. -/
theorem aggConsistent_of_find? (records : List UsageRecordRow)
    (stats : List AgentStatsRow) (agentName : String) (day : Int)
    (row : AgentStatsRow)
    (hfind : stats.find? (statsKeyMatches agentName day) = some row)
    (h1 : row.total_cost_usd = costSum (eventsIn records agentName day))
    (h2 : row.total_requests = (eventsIn records agentName day).length)
    (h3 : row.total_tokens = tokenSum (eventsIn records agentName day)) :
    aggConsistent records stats agentName day := by
  unfold aggConsistent
  rw [hfind]
  exact ⟨h1, h2, h3⟩

/-- The key fact behind the amended C2: inserting one event of the agent
at time now and then applying the separate aggregate update preserves
the aggregate invariant of that agent and day. -/
theorem aggConsistent_insert (records : List UsageRecordRow)
    (stats : List AgentStatsRow) (agentName model : String)
    (pt ct : Nat) (cost : ℚ) (now : Int)
    (h : aggConsistent records stats agentName (dateOf now)) :
    aggConsistent (records ++ [mkUsageRow agentName model pt ct cost now])
      (updateDailyStats stats agentName model 1 (pt + ct) cost (dateOf now))
      agentName (dateOf now) := by
  have hpe : ((mkUsageRow agentName model pt ct cost now).agent_name ==
      agentName &&
      dateOf (mkUsageRow agentName model pt ct cost now).timestamp ==
        dateOf now) = true := by
    simp [mkUsageRow]
  have hev : eventsIn
      (records ++ [mkUsageRow agentName model pt ct cost now])
      agentName (dateOf now) =
      eventsIn records agentName (dateOf now) ++
        [mkUsageRow agentName model pt ct cost now] := by
    rw [eventsIn, eventsIn, List.filter_append]
    simp [List.filter_cons, hpe]
  cases hfind : stats.find? (statsKeyMatches agentName (dateOf now)) with
  | none =>
    unfold aggConsistent at h
    rw [hfind] at h
    have hupd : updateDailyStats stats agentName model 1 (pt + ct) cost
        (dateOf now) =
        stats ++ [mkStatsRow agentName model 1 (pt + ct) cost
          (dateOf now)] := by
      rw [updateDailyStats, hfind]
    have hfka : statsKeyMatches agentName (dateOf now)
        (mkStatsRow agentName model 1 (pt + ct) cost (dateOf now)) =
        true := by
      simp [statsKeyMatches, mkStatsRow]
    have hfind2 : (stats ++ [mkStatsRow agentName model 1 (pt + ct) cost
        (dateOf now)]).find? (statsKeyMatches agentName (dateOf now)) =
        some (mkStatsRow agentName model 1 (pt + ct) cost (dateOf now)) := by
      rw [find?_append_of_none _ _ _ hfind]
      simp [List.find?, hfka]
    rw [hupd]
    refine aggConsistent_of_find? _ _ _ _ _ hfind2 ?_ ?_ ?_ <;>
      rw [hev, h] <;> simp [costSum, tokenSum, mkStatsRow, mkUsageRow]
  | some existing =>
    unfold aggConsistent at h
    rw [hfind] at h
    obtain ⟨hc, hr, ht⟩ := h
    have hg : ∀ r : AgentStatsRow,
        statsKeyMatches agentName (dateOf now)
          (bumpStatsRow existing model 1 (pt + ct) cost r) =
        statsKeyMatches agentName (dateOf now) r := fun r => rfl
    have hupd : updateDailyStats stats agentName model 1 (pt + ct) cost
        (dateOf now) =
        stats.map (fun r =>
          if statsKeyMatches agentName (dateOf now) r then
            bumpStatsRow existing model 1 (pt + ct) cost r
          else r) := by
      rw [updateDailyStats, hfind]
    have hfind2 : (stats.map (fun r =>
        if statsKeyMatches agentName (dateOf now) r then
          bumpStatsRow existing model 1 (pt + ct) cost r
        else r)).find? (statsKeyMatches agentName (dateOf now)) =
        some (bumpStatsRow existing model 1 (pt + ct) cost existing) := by
      rw [find?_map_guard _ _ hg, hfind]
      rfl
    rw [hupd]
    refine aggConsistent_of_find? _ _ _ _ _ hfind2 ?_ ?_ ?_ <;>
      rw [hev] <;>
      simp [costSum_append, tokenSum_append, hc, hr, ht, costSum,
        tokenSum, bumpStatsRow, mkUsageRow]

/-- One fully successful record_usage call returns true and preserves
the aggregate invariant of its agent and day. -/
theorem record_usage_step (db : DB) (agentName model : String)
    (pt ct : Nat) (cost : ℚ) (now : Int)
    (h : statsConsistent db agentName (dateOf now)) :
    (record_usage db agentName model pt ct cost now true true).2 = true ∧
    statsConsistent
      (record_usage db agentName model pt ct cost now true true).1
      agentName (dateOf now) := by
  refine ⟨rfl, ?_⟩
  exact aggConsistent_insert db.usage_records db.agent_stats agentName
    model pt ct cost now h

/-- Claim C2 (amended): for a sequence of record_usage calls of one
agent at one time in which the insert transaction and the separate
aggregate transaction both succeed, every call returns true and the
stored aggregate row of that agent and day carries exactly the total
cost, request count and token count of the recorded events. The two
transactions are not one atomic unit; the non-atomic case is the
counterexample theorem. -/
theorem record_usage_aggregate_invariant (db : DB) (agentName : String)
    (now : Int) (calls : List UsageCall)
    (h : statsConsistent db agentName (dateOf now)) :
    (runUsageCalls db agentName now calls).2.all (fun b => b) = true ∧
    statsConsistent (runUsageCalls db agentName now calls).1 agentName
      (dateOf now) := by
  induction calls generalizing db with
  | nil => exact ⟨rfl, h⟩
  | cons c rest ih =>
    have hstep := record_usage_step db agentName c.model c.prompt_tokens
      c.completion_tokens c.cost_usd now h
    have hrec := ih (record_usage db agentName c.model c.prompt_tokens
      c.completion_tokens c.cost_usd now true true).1 hstep.2
    constructor
    · simp only [runUsageCalls, List.all_cons, hstep.1, hrec.1,
        Bool.true_and]
    · simpa only [runUsageCalls] using hrec.2

/-- Witness for C2 (amended): one successful call on the empty database
returns true. -/
theorem record_usage_aggregate_invariant_witness :
    (runUsageCalls
        { usage_records := [], email_logs := [], agent_stats := [] }
        "a" 0 [{ model := "gpt-4", prompt_tokens := 1,
                 completion_tokens := 1, cost_usd := 1 }]).2.all
      (fun b => b) = true := by
  have h := record_usage_aggregate_invariant
    { usage_records := [], email_logs := [], agent_stats := [] } "a" 0
    [{ model := "gpt-4", prompt_tokens := 1, completion_tokens := 1,
       cost_usd := 1 }]
    (show eventsIn [] "a" (dateOf 0) = [] from rfl)
  exact h.1

/-- Counterexample to C2 as stated: the aggregate update is a second,
separate transaction. When the event insert commits and that second
transaction fails, record_usage still returns true, yet no aggregate row
exists for the event just recorded, so the aggregate does not equal the
sum of the events of that agent and day. -/
theorem record_usage_not_atomic_counterexample :
    (record_usage
        { usage_records := [], email_logs := [], agent_stats := [] }
        "a" "gpt-4" 1 1 1 0 true false).2 = true ∧
    ¬ statsConsistent
        (record_usage
          { usage_records := [], email_logs := [], agent_stats := [] }
          "a" "gpt-4" 1 1 1 0 true false).1 "a" 0 := by
  refine ⟨rfl, ?_⟩
  intro h
  have h2 : eventsIn [mkUsageRow "a" "gpt-4" 1 1 1 0] "a" 0 = [] := h
  have h3 : eventsIn [mkUsageRow "a" "gpt-4" 1 1 1 0] "a" 0 =
      [mkUsageRow "a" "gpt-4" 1 1 1 0] := rfl
  rw [h3] at h2
  cases h2

/-- One simulated day advances the random position by exactly its three
draws and never changes the stream itself. -/
theorem simulateDay_rng (mu : List (String × Nat)) (tr : Nat) (day : Int)
    (st : SimLoopState) :
    (simulateDay mu tr day st).rng.pos = st.rng.pos + 3 ∧
    (simulateDay mu tr day st).rng.supply = st.rng.supply :=
  ⟨rfl, rfl⟩

/-- The day loop advances the random position by three draws per day and
keeps the stream. -/
theorem simulateFold_rng (mu : List (String × Nat)) (tr : Nat)
    (startDay : Int) (l : List Nat) (st : SimLoopState) :
    ((l.foldl (fun st2 (i : Nat) =>
        simulateDay mu tr (startDay + (i : Int)) st2)
        st).rng.pos = st.rng.pos + 3 * l.length) ∧
    ((l.foldl (fun st2 (i : Nat) =>
        simulateDay mu tr (startDay + (i : Int)) st2)
        st).rng.supply = st.rng.supply) := by
  induction l generalizing st with
  | nil => exact ⟨by simp, rfl⟩
  | cons a rest ih =>
    have h := ih (simulateDay mu tr (startDay + (a : Int)) st)
    constructor
    · rw [List.foldl_cons, h.1, (simulateDay_rng mu tr _ st).1,
        List.length_cons]
      ring
    · rw [List.foldl_cons, h.2, (simulateDay_rng mu tr _ st).2]

/-- Claim C4 (amended): the database aggregation is deterministic and
side-effect free — run twice with no intervening writes it returns the
same summary and leaves the database exactly as it found it. The
provider simulation used by the dispatch pipeline is a function of the
hidden random stream and position only in the sense that it reads the
stream without changing it, but every run advances the position by four
draws plus three per simulated day, so a second run reads a different
part of the stream and in general returns a different summary. -/
theorem usage_data_determinism_amended (db : DB) (agentName : String)
    (daysBack : Nat) (today startDay endDay : Int) (r : Rng) :
    (get_usage_data_st db agentName daysBack today).2 = db ∧
    (get_usage_data_st (get_usage_data_st db agentName daysBack today).2
        agentName daysBack today).1 =
      (get_usage_data_st db agentName daysBack today).1 ∧
    (simulateUsageData startDay endDay r).2.supply = r.supply ∧
    (simulateUsageData startDay endDay r).2.pos =
      r.pos + 4 + 3 * (endDay + 1 - startDay).toNat := by
  refine ⟨rfl, rfl, ?_, ?_⟩
  · rw [show (simulateUsageData startDay endDay r).2 =
      ((List.range (endDay + 1 - startDay).toNat).foldl
        (fun st2 (i : Nat) => simulateDay
          [("gpt-3.5-turbo", (randint 20 150 (randint 50 300 r).2).1),
           ("gpt-4", (randint 10 50 (randint 20 150 (randint 50 300 r).2).2).1),
           ("text-embedding-ada-002", (randint 5 30 (randint 10 50
             (randint 20 150 (randint 50 300 r).2).2).2).1)]
          (randint 50 300 r).1 (startDay + (i : Int)) st2)
        { rng := (randint 5 30 (randint 10 50 (randint 20 150
            (randint 50 300 r).2).2).2).2,
          total_prompt_tokens := 0, total_completion_tokens := 0,
          total_cost := 0, daily_breakdown := [] }).rng from rfl]
    rw [(simulateFold_rng _ _ _ _ _).2]
    rfl
  · rw [show (simulateUsageData startDay endDay r).2 =
      ((List.range (endDay + 1 - startDay).toNat).foldl
        (fun st2 (i : Nat) => simulateDay
          [("gpt-3.5-turbo", (randint 20 150 (randint 50 300 r).2).1),
           ("gpt-4", (randint 10 50 (randint 20 150 (randint 50 300 r).2).2).1),
           ("text-embedding-ada-002", (randint 5 30 (randint 10 50
             (randint 20 150 (randint 50 300 r).2).2).2).1)]
          (randint 50 300 r).1 (startDay + (i : Int)) st2)
        { rng := (randint 5 30 (randint 10 50 (randint 20 150
            (randint 50 300 r).2).2).2).2,
          total_prompt_tokens := 0, total_completion_tokens := 0,
          total_cost := 0, daily_breakdown := [] }).rng from rfl]
    rw [(simulateFold_rng _ _ _ _ _).1, List.length_range]
    rfl

/-- Counterexample to C4 as stated: two successive runs of the simulated
usage-data computation for the same period, with no intervening writes,
return different totals, because the second run starts reading the
random stream where the first one stopped. -/
theorem simulate_usage_not_deterministic :
    ((simulateUsageData 0 1 { supply := fun n => n, pos := 0 }).1).total_requests ≠
      ((simulateUsageData 0 1
        ((simulateUsageData 0 1
          { supply := fun n => n, pos := 0 }).2)).1).total_requests := by
  decide

end Billfrog
